import Mathlib

/-!
Verification of the cosmic-mcp repository against its specification.

This file shallowly embeds the parts of the TypeScript source that the
claims concern:

* `src/utils/rate-limiter.ts` — the fixed-window rate limiter
  (`isAllowed`, `getRateLimitInfo`, `checkAndConsume`, `reset`);
* `src/errors/cosmic.error.ts` — `createCosmicError`;
* `src/services/object.service.ts` — `generateSlugFromTitle`,
  `checkObjectSlugExists`, `createObject`;
* the type service (`generatePluralForm`, `createObjectType`,
  `deleteObjectType`);
* `src/services/media.service.ts` — `uploadMedia` and its helpers;
* the tool-input validation lookup and the server dispatch pipeline.

Wall-clock time is a `Nat` of milliseconds passed explicitly; the
limiter map is a function from identifiers to optional entries; thrown
exceptions become `Except` values; repository calls become explicit
parameters recording what would be sent to the remote API.
-/

/-! ## Rate limiter (src/utils/rate-limiter.ts) -/

/-- `RateLimitConfig` from src/types/config.types: window length in
milliseconds and maximum number of requests per window. -/
structure RateLimitConfig where
  windowMs : Nat
  maxRequests : Nat
deriving Repr, DecidableEq

/-- `RateLimitEntry` (rate-limiter.ts lines 5-8): per-identifier counter
and absolute reset time. -/
structure RateLimitEntry where
  count : Nat
  resetTime : Nat
deriving Repr, DecidableEq

/-- The limiter's `requests` map, modelled as a function from identifier
to optional entry. -/
def RLState : Type := String → Option RateLimitEntry

/-- An empty `requests` map (fresh limiter). -/
def emptyRL : RLState := fun _ => none

/-- `this.requests.set(identifier, e)`. -/
def rlSet (st : RLState) (identifier : String) (e : RateLimitEntry) : RLState :=
  fun x => if x = identifier then some e else st x

/-- `RateLimiter.isAllowed` (rate-limiter.ts lines 22-52): returns the
boolean result and the updated map.  A missing entry or an expired
window (`now > entry.resetTime`) stores `{count: 1, resetTime: now +
windowMs}` and admits the call; a saturated window
(`entry.count >= maxRequests`) rejects without touching the map;
otherwise the count is incremented. -/
def isAllowed (cfg : RateLimitConfig) (now : Nat) (identifier : String)
    (st : RLState) : Bool × RLState :=
  match st identifier with
  | none => (true, rlSet st identifier ⟨1, now + cfg.windowMs⟩)
  | some entry =>
    if now > entry.resetTime then
      (true, rlSet st identifier ⟨1, now + cfg.windowMs⟩)
    else if entry.count ≥ cfg.maxRequests then
      (false, st)
    else
      (true, rlSet st identifier ⟨entry.count + 1, entry.resetTime⟩)

/-- `RateLimiter.reset` (rate-limiter.ts lines 128-130):
`this.requests.delete(identifier)`. -/
def rlReset (identifier : String) (st : RLState) : RLState :=
  fun x => if x = identifier then none else st x

/-- Result record of `getRateLimitInfo` (rate-limiter.ts lines 81-106).
`remaining` and `retryAfter` are `Int` because the source computes them
with `Math.max(0, ...)` and a subtraction on JS numbers. -/
structure RateLimitInfo where
  limit : Nat
  remaining : Int
  resetTime : Nat
  retryAfter : Int
deriving Repr, DecidableEq

/-- `RateLimiter.getRateLimitInfo` (rate-limiter.ts lines 81-106). -/
def getRateLimitInfo (cfg : RateLimitConfig) (now : Nat) (identifier : String)
    (st : RLState) : RateLimitInfo :=
  match st identifier with
  | none => ⟨cfg.maxRequests, cfg.maxRequests, now + cfg.windowMs, 0⟩
  | some entry =>
    if now > entry.resetTime then
      ⟨cfg.maxRequests, cfg.maxRequests, now + cfg.windowMs, 0⟩
    else
      ⟨cfg.maxRequests,
       max 0 ((cfg.maxRequests : Int) - entry.count),
       entry.resetTime,
       if entry.count ≥ cfg.maxRequests then (entry.resetTime : Int) - now else 0⟩

/-- `Math.ceil(a / b)` for integer `a` and positive integer `b`. -/
def jsCeilDiv (a : Int) (b : Int) : Int := -((-a).fdiv b)

/-- The `RateLimitError` thrown by `checkAndConsume` (rate-limiter.ts
lines 112-123): message plus the context record. -/
structure RateLimitErrorInfo where
  message : String
  identifier : String
  limit : Nat
  remaining : Int
  resetTime : Nat
  retryAfter : Int
deriving Repr, DecidableEq

/-- `RateLimitError.statusCode` is the constant 429
(src/errors/base.error.ts lines 53-57). -/
def RateLimitErrorInfo.statusCode (_ : RateLimitErrorInfo) : Nat := 429

/-- `RateLimiter.checkAndConsume` (rate-limiter.ts lines 109-125): calls
`isAllowed`; on `false` builds the info via `getRateLimitInfo` and
throws a `RateLimitError`.  `.ok` carries the updated map. -/
def checkAndConsume (cfg : RateLimitConfig) (now : Nat) (identifier : String)
    (st : RLState) : Except RateLimitErrorInfo RLState :=
  let r := isAllowed cfg now identifier st
  if r.1 then
    .ok r.2
  else
    let info := getRateLimitInfo cfg now identifier r.2
    .error
      ⟨"Rate limit exceeded. Try again in " ++
         toString (jsCeilDiv info.retryAfter 1000) ++ " seconds.",
       identifier, info.limit, info.remaining, info.resetTime, info.retryAfter⟩

/-- Fold a list of call instants through `isAllowed` for one identifier,
collecting the returned booleans and the final map. -/
def runCalls (cfg : RateLimitConfig) (identifier : String) :
    List Nat → RLState → List Bool × RLState
  | [], st => ([], st)
  | t :: ts, st =>
    let r := isAllowed cfg t identifier st
    let rest := runCalls cfg identifier ts r.2
    (r.1 :: rest.1, rest.2)

/-! ## JS string primitives

Characters are classified by code point, matching the JS regex classes
used in the source.  `Char.toLower` models `String.toLowerCase` (ASCII
case mapping; every claim involves ASCII data only). -/

/-- JS `\s` (whitespace) character class, by code point. -/
def wsChar (c : Char) : Bool :=
  let n := c.toNat
  (9 ≤ n && n ≤ 13) || n == 32 || n == 160 || n == 5760 ||
  (8192 ≤ n && n ≤ 8202) || n == 8232 || n == 8233 || n == 8239 ||
  n == 8287 || n == 12288 || n == 65279

/-- `[a-z]`. -/
def isLowerAlphaChar (c : Char) : Bool := 97 ≤ c.toNat && c.toNat ≤ 122

/-- `[A-Z]`. -/
def isUpperAlphaChar (c : Char) : Bool := 65 ≤ c.toNat && c.toNat ≤ 90

/-- `[0-9]`. -/
def isDigitChar (c : Char) : Bool := 48 ≤ c.toNat && c.toNat ≤ 57

/-- `[a-zA-Z0-9]`. -/
def isAlphaNumChar (c : Char) : Bool :=
  isLowerAlphaChar c || isUpperAlphaChar c || isDigitChar c

/-- JS `String.trim()` on a character list: drop `\s` runs at both ends. -/
def trimWsL (l : List Char) : List Char :=
  ((l.dropWhile wsChar).reverse.dropWhile wsChar).reverse

/-- Run-replacement automaton: `replaceRunsAux p r inRun l` copies `l`,
replacing every maximal run of characters satisfying `p` by the single
character `r`; `inRun` records whether the previous character was part
of such a run. -/
def replaceRunsAux (p : Char → Bool) (r : Char) : Bool → List Char → List Char
  | _, [] => []
  | inRun, c :: cs =>
    if p c then
      if inRun then replaceRunsAux p r true cs
      else r :: replaceRunsAux p r true cs
    else c :: replaceRunsAux p r false cs

/-- JS `String.replace(/p+/g, r)` for a character class `p` and a
one-character replacement `r`. -/
def replaceRuns (p : Char → Bool) (r : Char) (l : List Char) : List Char :=
  replaceRunsAux p r false l

/-- Drop a single leading occurrence of `ch` (the `^ch` half of a
`/^ch|ch$/g` replacement by the empty string). -/
def dropLeadChar (ch : Char) : List Char → List Char
  | [] => []
  | c :: cs => if c = ch then cs else c :: cs

/-- JS `String.replace(/^ch|ch$/g, "")`: remove one leading and one
trailing occurrence of `ch`. -/
def trimEdgeChar (ch : Char) (l : List Char) : List Char :=
  (dropLeadChar ch ((dropLeadChar ch l).reverse)).reverse

/-- JS `String.split(sep)` for a one-character separator, on character
lists (structural, so concrete instances evaluate in the kernel). -/
def splitOnChar (sep : Char) : List Char → List (List Char)
  | [] => [[]]
  | c :: cs =>
    let r := splitOnChar sep cs
    if c = sep then [] :: r
    else
      match r with
      | [] => [[c]]
      | g :: gs => (c :: g) :: gs

/-- Substring occurrence on character lists. -/
def listInfix (needle : List Char) : List Char → Bool
  | [] => needle.isEmpty
  | c :: cs => needle.isPrefixOf (c :: cs) || listInfix needle cs

/-- JS `haystack.includes(needle)`. -/
def jsIncludes (haystack needle : String) : Bool :=
  listInfix needle.data haystack.data

/-- JS `w.endsWith(suffix)` on character lists. -/
def jsEndsWith (w suf : List Char) : Bool := suf.isSuffixOf w

/-! ## Slug generation (src/services/object.service.ts lines 261-269) -/

/-- The character class kept by `replace(/[^a-z0-9\s-]/g, "")`. -/
def slugSourceChar (c : Char) : Bool :=
  isLowerAlphaChar c || isDigitChar c || wsChar c || c = '-'

/-- `ObjectService.generateSlugFromTitle` on a character list:
lowercase, trim, strip characters outside `[a-z0-9\s-]`, collapse
whitespace runs to single hyphens, collapse hyphen runs, then remove
one leading and one trailing hyphen. -/
def generateSlugL (l : List Char) : List Char :=
  trimEdgeChar '-'
    (replaceRuns (fun c => c = '-') '-'
      (replaceRuns wsChar '-'
        ((trimWsL (l.map Char.toLower)).filter slugSourceChar)))

/-- `ObjectService.generateSlugFromTitle` (object.service.ts 261-269). -/
def generateSlugFromTitle (title : String) : String := ⟨generateSlugL title.data⟩

/-- Character class of a finished slug: `[a-z0-9-]`. -/
def slugChar (c : Char) : Bool := isLowerAlphaChar c || isDigitChar c || c = '-'

/-- No two adjacent hyphens occur in the list. -/
def NoTwoHyphens (l : List Char) : Prop :=
  List.Chain' (fun a b => ¬(a = '-' ∧ b = '-')) l

/-! ## Pluralization (type service, `generatePluralForm`) -/

/-- `["a", "e", "i", "o", "u"].includes(word[word.length - 2] || "")`:
vowel test on the second-to-last character (false when absent). -/
def penultimateIsVowel (w : List Char) : Bool :=
  match w[w.length - 2]? with
  | none => false
  | some ch => ['a', 'e', 'i', 'o', 'u'].contains ch

/-- First branch of `generatePluralForm`: ends in `y`, length > 1, and
the previous character is not a vowel. -/
def consonantYCond (w : List Char) : Bool :=
  jsEndsWith w ['y'] && decide (w.length > 1) && !(penultimateIsVowel w)

/-- Second branch of `generatePluralForm`: ends in s / sh / ch / x / z. -/
def sibilantCond (w : List Char) : Bool :=
  jsEndsWith w ['s'] || jsEndsWith w ['s', 'h'] || jsEndsWith w ['c', 'h'] ||
  jsEndsWith w ['x'] || jsEndsWith w ['z']

/-- The branch cascade of `TypeService.generatePluralForm` applied to the
lower-cased, trimmed word, in the source's branch order (`slice(0,-1)` is
`dropLast`, `slice(0,-2)` is `dropLast` twice). -/
def pluralizeWord (w : List Char) : List Char :=
  if consonantYCond w then w.dropLast ++ ['i', 'e', 's']
  else if sibilantCond w then w ++ ['e', 's']
  else if jsEndsWith w ['f'] then w.dropLast ++ ['v', 'e', 's']
  else if jsEndsWith w ['f', 'e'] then w.dropLast.dropLast ++ ['v', 'e', 's']
  else w ++ ['s']

/-- `TypeService.generatePluralForm`: `const word =
title.toLowerCase().trim()` followed by the pluralization cascade. -/
def generatePluralForm (title : String) : String :=
  ⟨pluralizeWord (trimWsL (title.data.map Char.toLower))⟩

/-! ## Error taxonomy and `createCosmicError`
(src/errors/base.error.ts, src/errors/cosmic.error.ts) -/

/-- A JS `Error` value restricted to what `createCosmicError` consults:
its `message` string. -/
structure JsError where
  message : String
deriving Repr, DecidableEq

/-- The two keys of the `context` record that `createCosmicError`
consults (`context['identifier']`, `context['type']`). -/
structure ErrCtx where
  identifier : Option String
  type : Option String
deriving Repr, DecidableEq

/-- `(context?.['identifier'] as string) || "unknown"`: the identifier
defaults to "unknown" when the context or the key is absent, or when the
value is the empty (falsy) string. -/
def ctxIdentifier (ctx : Option ErrCtx) : String :=
  match ctx with
  | none => "unknown"
  | some c =>
    match c.identifier with
    | none => "unknown"
    | some s => if s = "" then "unknown" else s

/-- `context?.['type'] as string`. -/
def ctxType (ctx : Option ErrCtx) : Option String :=
  ctx.bind (·.type)

/-- The Cosmic error classes of src/errors/cosmic.error.ts, as a tagged
variant type.  `.cosmic` is the generic `CosmicError` carrying the
original message, the context and the original error as `cause`. -/
inductive CosmicErr where
  | objectNotFound (identifier : String) (type : Option String)
  | mediaNotFound (mediaId : String)
  | authentication (message : String)
  | quotaExceeded (message : String)
  | cosmicValidation (message : String)
  | connection (message : String)
  | cosmic (message : String) (context : Option ErrCtx) (cause : Option JsError)
deriving Repr, DecidableEq

/-- The `statusCode` field of each Cosmic error class. -/
def CosmicErr.statusCode : CosmicErr → Nat
  | .objectNotFound _ _ => 404
  | .mediaNotFound _ => 404
  | .authentication _ => 401
  | .quotaExceeded _ => 429
  | .cosmicValidation _ => 400
  | .connection _ => 503
  | .cosmic _ _ _ => 500

/-- `createCosmicError` (cosmic.error.ts lines 76-119) restricted to
`Error` inputs (the claims only concern error values carrying a string
message).  Each test is `error.message.includes(...)` on the message as
the source wrote it — the source never lower-cases the message. -/
def createCosmicError (e : JsError) (ctx : Option ErrCtx) : CosmicErr :=
  if jsIncludes e.message "not found" || jsIncludes e.message "404" then
    .objectNotFound (ctxIdentifier ctx) (ctxType ctx)
  else if jsIncludes e.message "unauthorized" || jsIncludes e.message "401" then
    .authentication e.message
  else if jsIncludes e.message "quota" || jsIncludes e.message "429" then
    .quotaExceeded e.message
  else if jsIncludes e.message "validation" || jsIncludes e.message "400" then
    .cosmicValidation e.message
  else if jsIncludes e.message "network" || jsIncludes e.message "connection" then
    .connection e.message
  else
    .cosmic e.message ctx (some e)

/-- Errors thrown by the service layer: its own `ValidationError`
(base.error.ts, statusCode 400), the limiter's `RateLimitError`
(statusCode 429), or a propagated repository error. -/
inductive ServiceError where
  | validationError (message : String)
  | rateLimit (e : RateLimitErrorInfo)
  | repo (e : CosmicErr)
deriving Repr, DecidableEq

/-- `statusCode` of a service-layer error. -/
def ServiceError.statusCode : ServiceError → Nat
  | .validationError _ => 400
  | .rateLimit _ => 429
  | .repo e => e.statusCode

/-! ## Object service (src/services/object.service.ts) -/

/-- `CreateObjectData` restricted to the fields the service consults. -/
structure CreateObjectData where
  title : String
  typeSlug : String
  slug : Option String
  status : String
deriving Repr, DecidableEq

/-- `ObjectService.checkObjectSlugExists` (object.service.ts 271-282):
the lookup result is `true` exactly when `findOne` succeeded; every
thrown error — not only NotFound — is caught and reported as `false`
("slug is available"). -/
def checkObjectSlugExists (findOneResult : Except CosmicErr Unit) : Bool :=
  match findOneResult with
  | .ok _ => true
  | .error _ => false

/-- The slug `createObject` ends up using: the given one if truthy, else
the one generated from the title (`if (!data.slug) data.slug =
this.generateSlugFromTitle(data.title)`). -/
def effectiveSlug (data : CreateObjectData) : String :=
  match data.slug with
  | none => generateSlugFromTitle data.title
  | some s => if s = "" then generateSlugFromTitle data.title else s

/-- `ObjectService.createObject` (object.service.ts 76-115).
`typeExists` is the result of `typeRepository.typeExists(data.typeSlug)`
and `findOneBySlug slug typeSlug` the result of
`objectRepository.findOne({slug, typeSlug})`.  `.ok d` means
`objectRepository.create(d)` is invoked with `d`. -/
def createObject (cfg : RateLimitConfig) (st : RLState) (now : Nat)
    (typeExists : Bool) (findOneBySlug : String → String → Except CosmicErr Unit)
    (data : CreateObjectData) : Except ServiceError CreateObjectData :=
  match checkAndConsume cfg now "create_object" st with
  | .error e => .error (.rateLimit e)
  | .ok _ =>
    if !typeExists then
      .error (.validationError
        ("Object type \x27" ++ data.typeSlug ++ "\x27 does not exist"))
    else
      let slug := effectiveSlug data
      let data' := { data with slug := some slug }
      if slug ≠ "" then
        if checkObjectSlugExists (findOneBySlug slug data.typeSlug) then
          .error (.validationError
            ("An object with slug \x27" ++ slug ++ "\x27 already exists in type \x27" ++
             data.typeSlug ++ "\x27"))
        else .ok data'
      else .ok data'

/-! ## Type service (src/unnamed/part_000) -/

/-- `CreateObjectTypeData` restricted to the fields the service consults. -/
structure CreateObjectTypeData where
  title : String
  slug : String
  singular : Option String
  plural : Option String
deriving Repr, DecidableEq

/-- `TypeService.isValidSlugFormat`: `^[a-z0-9]+(?:-[a-z0-9]+)*$` and
length between 2 and 50.  The regex is equivalent to: splitting on `-`
yields only nonempty all-`[a-z0-9]` segments. -/
def isValidSlugFormat (slug : String) : Bool :=
  ((splitOnChar '-' slug.data).all fun seg =>
    !seg.isEmpty && seg.all fun c => isLowerAlphaChar c || isDigitChar c) &&
  2 ≤ slug.length && slug.length ≤ 50

/-- `TypeService.createObjectType` (part_000 lines 45-78).
`typeSlugExists` is `typeRepository.typeExists(data.slug)`.  `.ok d`
means `typeRepository.create(d)` is invoked with `d`, after the
falsy-singular/plural defaulting. -/
def createObjectType (cfg : RateLimitConfig) (st : RLState) (now : Nat)
    (typeSlugExists : Bool) (data : CreateObjectTypeData) :
    Except ServiceError CreateObjectTypeData :=
  match checkAndConsume cfg now "create_object_type" st with
  | .error e => .error (.rateLimit e)
  | .ok _ =>
    if !isValidSlugFormat data.slug then
      .error (.validationError
        ("Invalid slug format. Must contain only lowercase letters, numbers, " ++
         "and hyphens, and cannot start or end with a hyphen."))
    else if typeSlugExists then
      .error (.validationError
        ("Object type with slug \x27" ++ data.slug ++ "\x27 already exists"))
    else
      let singular :=
        match data.singular with
        | none => data.title
        | some s => if s = "" then data.title else s
      let plural :=
        match data.plural with
        | none => generatePluralForm data.title
        | some s => if s = "" then generatePluralForm data.title else s
      .ok { data with singular := some singular, plural := some plural }

/-- The query record `deleteObjectType` passes to
`objectRepository.findMany` (part_000 lines 105-111). -/
structure FindManyQuery where
  typeSlug : Option String
  status : String
  limit : Nat
  skip : Nat
  sort : String
deriving Repr, DecidableEq

/-- A Cosmic list response as consulted by `deleteObjectType`: the
`objects` array (element identities irrelevant, only presence and
length are used) and the optional `total`. -/
structure CosmicListResponse where
  objects : Option (List String)
  total : Option Nat
deriving Repr, DecidableEq

/-- `${objectsOfType.total || "existing"}`: the count when `total` is
present and nonzero (JS falsiness), otherwise the word "existing". -/
def jsCountOrExisting (total : Option Nat) : String :=
  match total with
  | some n => if n = 0 then "existing" else toString n
  | none => "existing"

/-- `objectsOfType.total || objectsOfType.objects.length` for the error
context's `objectCount`. -/
def jsCountOrLength (total : Option Nat) (objs : List String) : Nat :=
  match total with
  | some n => if n = 0 then objs.length else n
  | none => objs.length

deriving instance DecidableEq for Except

/-- Trace of one `TypeService.deleteObjectType` call: the query sent to
`objectRepository.findMany` (if reached), whether
`typeRepository.delete` was invoked, and the outcome. -/
structure DeleteTypeTrace where
  issuedQuery : Option FindManyQuery
  deleteCalled : Bool
  outcome : Except ServiceError Unit
deriving Repr, DecidableEq

/-- `TypeService.deleteObjectType` (part_000 lines 95-131).  `findOne`
is the result of `typeRepository.findOne(query)` and `findMany` the
object repository's response to the issued query. -/
def deleteObjectType (cfg : RateLimitConfig) (st : RLState) (now : Nat)
    (slug : String) (findOne : Except CosmicErr Unit)
    (findMany : FindManyQuery → CosmicListResponse) : DeleteTypeTrace :=
  match checkAndConsume cfg now "delete_object_type" st with
  | .error e => ⟨none, false, .error (.rateLimit e)⟩
  | .ok _ =>
    match findOne with
    | .error e => ⟨none, false, .error (.repo e)⟩
    | .ok _ =>
      let q : FindManyQuery := ⟨some slug, "any", 1, 0, "created_at"⟩
      let res := findMany q
      match res.objects with
      | some objs =>
        if objs.length > 0 then
          ⟨some q, false, .error (.validationError
            ("Cannot delete object type \x27" ++ slug ++ "\x27 because it has " ++
             jsCountOrExisting res.total ++
             " objects. Delete all objects of this type first."))⟩
        else ⟨some q, true, .ok ()⟩
      | none => ⟨some q, true, .ok ()⟩

/-! ## Media service (src/services/media.service.ts) -/

/-- `CreateMediaData` restricted to the fields the service consults. -/
structure CreateMediaData where
  fileData : String
  filename : String
  folder : Option String
  altText : Option String
deriving Repr, DecidableEq

/-- `MAX_FILE_SIZE = 50 * 1024 * 1024`. -/
def maxFileSize : Nat := 50 * 1024 * 1024

/-- `ALLOWED_MIME_TYPES` (media.service.ts lines 21-36). -/
def allowedMimeTypes : List String :=
  ["image/jpeg", "image/jpg", "image/png", "image/gif", "image/webp",
   "image/svg+xml", "video/mp4", "video/webm", "audio/mp3", "audio/wav",
   "application/pdf", "text/plain", "text/csv", "application/json"]

/-- The `mimeTypeMap` extension table (media.service.ts lines 266-281). -/
def mimeExtensionMap : List (String × String) :=
  [("jpg", "image/jpeg"), ("jpeg", "image/jpeg"), ("png", "image/png"),
   ("gif", "image/gif"), ("webp", "image/webp"), ("svg", "image/svg+xml"),
   ("mp4", "video/mp4"), ("webm", "video/webm"), ("mp3", "audio/mp3"),
   ("wav", "audio/wav"), ("pdf", "application/pdf"), ("txt", "text/plain"),
   ("csv", "text/csv"), ("json", "application/json")]

/-- `MediaService.getMimeTypeFromFilename` (media.service.ts 263-284):
`filename.split(".").pop()?.toLowerCase()` looked up in the table, with
`"application/octet-stream"` as the fallback. -/
def getMimeTypeFromFilename (filename : String) : String :=
  let extension := ((splitOnChar '.' filename.data).getLast?).getD []
  let ext : String := ⟨extension.map Char.toLower⟩
  (mimeExtensionMap.lookup ext).getD "application/octet-stream"

/-- Base64 alphabet character. -/
def isBase64Char (c : Char) : Bool :=
  isAlphaNumChar c || c = '+' || c = '/'

/-- Byte length of `Buffer.from(s, "base64")` for well-formed input:
three bytes per four alphabet characters (padding and foreign
characters are ignored by Node's decoder). -/
def base64DecodedLength (s : String) : Nat :=
  (s.data.filter isBase64Char).length * 3 / 4

/-- The filename regex `^[a-zA-Z0-9._-]+\.[a-zA-Z0-9]+$`
(media.service.ts line 241): every character in the class, and a
nonempty all-alphanumeric extension after the last dot with a nonempty
stem before it. -/
def validFilenameFormat (filename : String) : Bool :=
  let l := filename.data
  let extRev := l.reverse.takeWhile fun c => c ≠ '.'
  l.all (fun c => isAlphaNumChar c || c = '.' || c = '_' || c = '-') &&
  l.contains '.' &&
  !extRev.isEmpty &&
  extRev.all isAlphaNumChar &&
  extRev.length + 1 < l.length

/-- `Math.round(a / b)` for natural `a` and positive natural `b`
(round-half-up on the exact quotient). -/
def natRoundDiv (a b : Nat) : Nat := (2 * a + b) / (2 * b)

/-- `MediaService.sanitizeFolderPath` (media.service.ts 294-300):
trim, strip characters outside `[a-zA-Z0-9/_-]`, collapse slash runs,
remove one leading and one trailing slash. -/
def sanitizeFolderPath (folder : String) : String :=
  ⟨trimEdgeChar '/'
    (replaceRuns (fun c => c = '/') '/'
      ((trimWsL folder.data).filter fun c =>
        isAlphaNumChar c || c = '/' || c = '_' || c = '-'))⟩

/-- The `replace(/\.[^/.]+$/, "")` step of
`generateAltTextFromFilename`: remove a final dot-extension whose
characters contain neither `.` nor `/`. -/
def stripExtension (l : List Char) : List Char :=
  let revl := l.reverse
  let extRev := revl.takeWhile fun c => c ≠ '.' && c ≠ '/'
  if !extRev.isEmpty && (revl.drop extRev.length).head? = some '.' then
    (revl.drop (extRev.length + 1)).reverse
  else l

/-- The `replace(/([a-z])([A-Z])/g, "$1 $2")` camel-case split: insert a
space between a lowercase letter and the uppercase letter after it. -/
def camelSplit : List Char → List Char
  | [] => []
  | [c] => [c]
  | a :: b :: t =>
    if isLowerAlphaChar a && isUpperAlphaChar b then a :: ' ' :: camelSplit (b :: t)
    else a :: camelSplit (b :: t)

/-- `MediaService.generateAltTextFromFilename` (media.service.ts
302-309): strip the extension, map `_`/`-` to spaces, split camelCase,
lowercase, trim. -/
def generateAltTextFromFilename (filename : String) : String :=
  ⟨trimWsL ((camelSplit ((stripExtension filename.data).map
      fun c => if c = '_' || c = '-' then ' ' else c)).map Char.toLower)⟩

/-- `MediaService.uploadMedia` (media.service.ts 62-90) with its
validation helpers inlined in source order (`validateFileData`,
`validateFilename`, `validateFileSize`, then the MIME check).  The
base64 `try/catch` of `validateFileData` is dead code — Node's
`Buffer.from(s, "base64")` never throws — so no branch models it.
`.ok d` means `mediaRepository.create(d)` is invoked with `d`. -/
def uploadMedia (cfg : RateLimitConfig) (st : RLState) (now : Nat)
    (data : CreateMediaData) : Except ServiceError CreateMediaData :=
  match checkAndConsume cfg now "upload_media" st with
  | .error e => .error (.rateLimit e)
  | .ok _ =>
    if data.fileData = "" || (trimWsL data.fileData.data).length = 0 then
      .error (.validationError "File data is required")
    else if data.filename = "" || (trimWsL data.filename.data).length = 0 then
      .error (.validationError "Filename is required")
    else if !validFilenameFormat data.filename then
      .error (.validationError "Invalid filename format")
    else if data.filename.length > 255 then
      .error (.validationError "Filename is too long (max 255 characters)")
    else if base64DecodedLength data.fileData > maxFileSize then
      .error (.validationError
        ("File size (" ++ toString (natRoundDiv (base64DecodedLength data.fileData) (1024 * 1024)) ++
         "MB) exceeds maximum allowed size (" ++
         toString (natRoundDiv maxFileSize (1024 * 1024)) ++ "MB)"))
    else
      let mimeType := getMimeTypeFromFilename data.filename
      if !(allowedMimeTypes.contains mimeType) then
        .error (.validationError
          ("File type \x27" ++ mimeType ++ "\x27 is not allowed. Allowed types: " ++
           String.intercalate ", " allowedMimeTypes))
      else
        let folder :=
          match data.folder with
          | none => none
          | some f => if f = "" then some f else some (sanitizeFolderPath f)
        let altText :=
          match data.altText with
          | none => some (generateAltTextFromFilename data.filename)
          | some a =>
            if a = "" then some (generateAltTextFromFilename data.filename) else some a
        .ok { data with folder := folder, altText := altText }

/-! ## Tool-input validation and dispatch (src/unnamed/part_001,
src/server.ts) -/

/-- The keys of `toolValidationMap` (part_001 lines 103-114). -/
def registeredTools : List String :=
  ["list_objects", "get_object", "create_object", "update_object",
   "delete_object", "list_object_types", "upload_media", "list_media",
   "delete_media", "search_objects"]

/-- A plain JS `Error` as thrown by `validateToolInput`: it carries a
message and no `statusCode` field. -/
structure PlainJsError where
  message : String
deriving Repr, DecidableEq

/-- `validateToolInput` (part_001 lines 129-135): looks the tool name up
in `toolValidationMap`; throws a plain `Error("Unknown tool: ...")` when
no schema is registered.  `.ok name` marks that the registered schema's
`parse` proceeds (schema internals are outside the claims). -/
def validateToolInput (toolName : String) : Except PlainJsError String :=
  if registeredTools.contains toolName then .ok toolName
  else .error ⟨"Unknown tool: " ++ toolName⟩

/-- Outcome of the server's CallTool handler up to dispatch. -/
inductive CallOutcome where
  | rateLimited (e : RateLimitErrorInfo)
  | plainException (e : PlainJsError)
  | dispatched (tool : String)
deriving Repr, DecidableEq

/-- The CallTool request handler of src/server.ts (lines 115-163, then
`executeToolHandler`): first the global rate check on
`tool_${name}`, then `validateToolInput`, then the routing switch. -/
def callToolPipeline (cfg : RateLimitConfig) (st : RLState) (now : Nat)
    (name : String) : CallOutcome :=
  match checkAndConsume cfg now ("tool_" ++ name) st with
  | .error e => .rateLimited e
  | .ok _ =>
    match validateToolInput name with
    | .error e => .plainException e
    | .ok t => .dispatched t

/-! ## Lemmas and claim theorems -/

lemma rlSet_same (st : RLState) (identifier : String) (e : RateLimitEntry) :
    rlSet st identifier e identifier = some e := by
  simp [rlSet]

lemma isAllowed_increment (cfg : RateLimitConfig) (now : Nat) (identifier : String)
    (st : RLState) (c R : Nat) (hentry : st identifier = some ⟨c, R⟩)
    (hnow : now ≤ R) (hc : c < cfg.maxRequests) :
    isAllowed cfg now identifier st =
      (true, rlSet st identifier ⟨c + 1, R⟩) := by
  simp only [isAllowed, hentry]
  rw [if_neg (by omega), if_neg (by omega)]

lemma isAllowed_reject (cfg : RateLimitConfig) (now : Nat) (identifier : String)
    (st : RLState) (c R : Nat) (hentry : st identifier = some ⟨c, R⟩)
    (hnow : now ≤ R) (hc : cfg.maxRequests ≤ c) :
    isAllowed cfg now identifier st = (false, st) := by
  simp only [isAllowed, hentry]
  rw [if_neg (by omega), if_pos (by omega)]

/-- Within a live window, a run of calls that stays at or below the
configured limit is fully admitted and ends with the counter advanced by
the number of calls. -/
lemma runCalls_within (cfg : RateLimitConfig) (identifier : String) :
    ∀ (ts : List Nat) (st : RLState) (c R : Nat),
      st identifier = some ⟨c, R⟩ →
      (∀ t ∈ ts, t ≤ R) →
      c + ts.length ≤ cfg.maxRequests →
      (runCalls cfg identifier ts st).1 = List.replicate ts.length true ∧
      (runCalls cfg identifier ts st).2 identifier = some ⟨c + ts.length, R⟩ := by
  intro ts
  induction ts with
  | nil =>
    intro st c R hentry _ _
    simpa [runCalls] using hentry
  | cons t ts ih =>
    intro st c R hentry hts hcount
    have hstep : isAllowed cfg t identifier st =
        (true, rlSet st identifier ⟨c + 1, R⟩) := by
      refine isAllowed_increment cfg t identifier st c R hentry ?_ ?_
      · exact hts t (List.mem_cons_self t ts)
      · simp only [List.length_cons] at hcount; omega
    have hrest := ih (rlSet st identifier ⟨c + 1, R⟩) (c + 1) R
      (rlSet_same st identifier ⟨c + 1, R⟩)
      (fun u hu => hts u (List.mem_cons_of_mem t hu))
      (by simp only [List.length_cons] at hcount; omega)
    simp only [runCalls, hstep, List.length_cons, List.replicate_succ]
    refine ⟨by simp [hrest.1], ?_⟩
    rw [hrest.2]
    have hlen : c + 1 + ts.length = c + (ts.length + 1) := by omega
    rw [hlen]

lemma isAllowed_fresh (cfg : RateLimitConfig) (now : Nat) (identifier : String)
    (st : RLState) (h : st identifier = none) :
    isAllowed cfg now identifier st =
      (true, rlSet st identifier ⟨1, now + cfg.windowMs⟩) := by
  simp [isAllowed, h]

lemma isAllowed_expired (cfg : RateLimitConfig) (now : Nat) (identifier : String)
    (st : RLState) (e : RateLimitEntry) (h : st identifier = some e)
    (hnow : e.resetTime < now) :
    isAllowed cfg now identifier st =
      (true, rlSet st identifier ⟨1, now + cfg.windowMs⟩) := by
  simp only [isAllowed, h]
  rw [if_pos (by omega)]

/-- C1: starting from no live entry, `isAllowed` admits exactly
`maxRequests` calls whose instants stay within the window opened by the
first call, leaving the entry at `{count: maxRequests, resetTime: t0 +
windowMs}`; one further call within the window is rejected and leaves
the whole map unchanged; and any call made strictly more than
`windowMs` after the entry was created re-initializes the entry to
`{count: 1, resetTime: now + windowMs}` and is admitted regardless of
the prior count. -/
theorem rateLimiter_window_policy (cfg : RateLimitConfig) (identifier : String)
    (_hmax : 1 ≤ cfg.maxRequests) :
    (∀ (t0 : Nat) (rest : List Nat) (st0 : RLState),
      st0 identifier = none →
      rest.length + 1 = cfg.maxRequests →
      (∀ t ∈ rest, t ≤ t0 + cfg.windowMs) →
      (runCalls cfg identifier (t0 :: rest) st0).1 =
        List.replicate cfg.maxRequests true ∧
      (runCalls cfg identifier (t0 :: rest) st0).2 identifier =
        some ⟨cfg.maxRequests, t0 + cfg.windowMs⟩ ∧
      (∀ t ≤ t0 + cfg.windowMs,
        isAllowed cfg t identifier (runCalls cfg identifier (t0 :: rest) st0).2 =
          (false, (runCalls cfg identifier (t0 :: rest) st0).2))) ∧
    (∀ (st : RLState) (c tc now : Nat),
      st identifier = some ⟨c, tc + cfg.windowMs⟩ →
      tc + cfg.windowMs < now →
      (isAllowed cfg now identifier st).1 = true ∧
      (isAllowed cfg now identifier st).2 identifier =
        some ⟨1, now + cfg.windowMs⟩) := by
  constructor
  · intro t0 rest st0 h0 hlen hrest
    have hfirst := isAllowed_fresh cfg t0 identifier st0 h0
    have hrun := runCalls_within cfg identifier rest
      (rlSet st0 identifier ⟨1, t0 + cfg.windowMs⟩) 1 (t0 + cfg.windowMs)
      (rlSet_same st0 identifier ⟨1, t0 + cfg.windowMs⟩) hrest (by omega)
    have hunfold :
        runCalls cfg identifier (t0 :: rest) st0 =
          ((true :: (runCalls cfg identifier rest
              (rlSet st0 identifier ⟨1, t0 + cfg.windowMs⟩)).1),
           (runCalls cfg identifier rest
              (rlSet st0 identifier ⟨1, t0 + cfg.windowMs⟩)).2) := by
      simp [runCalls, hfirst]
    have hfinal :
        (runCalls cfg identifier (t0 :: rest) st0).2 identifier =
          some ⟨cfg.maxRequests, t0 + cfg.windowMs⟩ := by
      rw [hunfold]
      have := hrun.2
      rwa [show 1 + rest.length = cfg.maxRequests by omega] at this
    refine ⟨?_, hfinal, ?_⟩
    · rw [hunfold]
      simp only [hrun.1]
      rw [show cfg.maxRequests = rest.length + 1 by omega]
      simp [List.replicate_succ]
    · intro t ht
      exact isAllowed_reject cfg t identifier _ cfg.maxRequests
        (t0 + cfg.windowMs) hfinal ht (le_refl _)
  · intro st c tc now hentry hnow
    have h := isAllowed_expired cfg now identifier st ⟨c, tc + cfg.windowMs⟩ hentry hnow
    rw [h]
    exact ⟨rfl, rlSet_same st identifier ⟨1, now + cfg.windowMs⟩⟩

/-- C1 witness: with `windowMs = 1000`, `maxRequests = 2`, calls at
instants 0 and 5 are both admitted, a third call at instant 7 is
rejected, and a call at instant 1001 is admitted again. -/
theorem rateLimiter_window_policy_witness :
    (runCalls ⟨1000, 2⟩ "global" [0, 5] emptyRL).1 = [true, true] ∧
    (isAllowed ⟨1000, 2⟩ 7 "global"
      (runCalls ⟨1000, 2⟩ "global" [0, 5] emptyRL).2).1 = false ∧
    (isAllowed ⟨1000, 2⟩ 1001 "global"
      (runCalls ⟨1000, 2⟩ "global" [0, 5] emptyRL).2).1 = true := by
  have H := rateLimiter_window_policy ⟨1000, 2⟩ "global" (by decide)
  obtain ⟨h1, h2, h3⟩ := H.1 0 [5] emptyRL rfl (by decide) (by decide)
  refine ⟨by simpa using h1, by rw [h3 7 (by decide)], ?_⟩
  have h2' : (runCalls ⟨1000, 2⟩ "global" [0, 5] emptyRL).2 "global" =
      some ⟨2, 0 + 1000⟩ := by simpa using h2
  exact (H.2 _ 2 0 1001 h2' (by decide)).1

/-- C10: for an identifier with no live entry — never seen, explicitly
reset, or expired — `isAllowed` returns true and stores `{count: 1,
resetTime: now + windowMs}`, for every configuration including
`maxRequests = 0`. -/
theorem rateLimiter_first_request_admitted (cfg : RateLimitConfig)
    (identifier : String) :
    (∀ (st : RLState) (now : Nat), st identifier = none →
      (isAllowed cfg now identifier st).1 = true ∧
      (isAllowed cfg now identifier st).2 identifier =
        some ⟨1, now + cfg.windowMs⟩) ∧
    (∀ (st : RLState) (now : Nat),
      (isAllowed cfg now identifier (rlReset identifier st)).1 = true ∧
      (isAllowed cfg now identifier (rlReset identifier st)).2 identifier =
        some ⟨1, now + cfg.windowMs⟩) ∧
    (∀ (st : RLState) (e : RateLimitEntry) (now : Nat),
      st identifier = some e → e.resetTime < now →
      (isAllowed cfg now identifier st).1 = true ∧
      (isAllowed cfg now identifier st).2 identifier =
        some ⟨1, now + cfg.windowMs⟩) := by
  refine ⟨fun st now h => ?_, fun st now => ?_, fun st e now h hnow => ?_⟩
  · rw [isAllowed_fresh cfg now identifier st h]
    exact ⟨rfl, rlSet_same st identifier _⟩
  · rw [isAllowed_fresh cfg now identifier (rlReset identifier st) (by simp [rlReset])]
    exact ⟨rfl, rlSet_same _ identifier _⟩
  · rw [isAllowed_expired cfg now identifier st e h hnow]
    exact ⟨rfl, rlSet_same st identifier _⟩

/-- C10 witness: with `maxRequests = 0`, the first request for a fresh
identifier is still admitted and stores `{count: 1, resetTime: 0 + 1000}`. -/
theorem rateLimiter_first_request_admitted_witness :
    (isAllowed ⟨1000, 0⟩ 0 "global" emptyRL).1 = true ∧
    (isAllowed ⟨1000, 0⟩ 0 "global" emptyRL).2 "global" = some ⟨1, 0 + 1000⟩ := by
  exact (rateLimiter_first_request_admitted ⟨1000, 0⟩ "global").1 emptyRL 0 rfl

/-- C4: when an identifier's window is saturated (its entry has `count ≥
maxRequests` and `now ≤ resetTime`), `checkAndConsume` throws a
`RateLimitError` with statusCode 429 whose context carries the
identifier, the configured limit, remaining 0, the entry's `resetTime`,
and `retryAfter = resetTime - now ≥ 0`; when `isAllowed` admits the
call, `checkAndConsume` returns normally. -/
theorem checkAndConsume_policy (cfg : RateLimitConfig) (identifier : String) :
    (∀ (st : RLState) (now : Nat) (e : RateLimitEntry),
      st identifier = some e → cfg.maxRequests ≤ e.count → now ≤ e.resetTime →
      ∃ err : RateLimitErrorInfo,
        checkAndConsume cfg now identifier st = .error err ∧
        err.statusCode = 429 ∧ err.identifier = identifier ∧
        err.limit = cfg.maxRequests ∧ err.remaining = 0 ∧
        err.resetTime = e.resetTime ∧
        err.retryAfter = (e.resetTime : Int) - now ∧ 0 ≤ err.retryAfter) ∧
    (∀ (st : RLState) (now : Nat),
      (isAllowed cfg now identifier st).1 = true →
      checkAndConsume cfg now identifier st =
        .ok (isAllowed cfg now identifier st).2) := by
  constructor
  · intro st now e hentry hcount hwin
    have hrej := isAllowed_reject cfg now identifier st e.count e.resetTime
      hentry hwin hcount
    have hinfo : getRateLimitInfo cfg now identifier st =
        ⟨cfg.maxRequests, 0, e.resetTime, (e.resetTime : Int) - now⟩ := by
      simp only [getRateLimitInfo, hentry]
      rw [if_neg (by omega)]
      have hrem : max 0 ((cfg.maxRequests : Int) - e.count) = 0 := by omega
      rw [if_pos hcount, hrem]
    have hstep : checkAndConsume cfg now identifier st =
        .error ⟨"Rate limit exceeded. Try again in " ++
            toString (jsCeilDiv ((e.resetTime : Int) - now) 1000) ++ " seconds.",
          identifier, cfg.maxRequests, 0, e.resetTime, (e.resetTime : Int) - now⟩ := by
      have he : (⟨e.count, e.resetTime⟩ : RateLimitEntry) = e := rfl
      simp only [checkAndConsume, he] at *
      rw [hrej]
      simp only [Bool.false_eq_true, if_false, hinfo]
    refine ⟨_, hstep, rfl, rfl, rfl, rfl, rfl, rfl, ?_⟩
    show (0 : Int) ≤ (e.resetTime : Int) - now
    omega
  · intro st now h
    simp only [checkAndConsume]
    rw [if_pos h]

/-- C4 witness: with limit 1 and a saturated entry `{count: 1,
resetTime: 500}`, a call at instant 200 throws the 429 error with
remaining 0 and retryAfter 300, and a call on a fresh map returns
normally. -/
theorem checkAndConsume_policy_witness :
    (∃ err : RateLimitErrorInfo,
      checkAndConsume ⟨1000, 1⟩ 200 "g" (rlSet emptyRL "g" ⟨1, 500⟩) = .error err ∧
      err.statusCode = 429 ∧ err.identifier = "g" ∧ err.limit = 1 ∧
      err.remaining = 0 ∧ err.resetTime = 500 ∧
      err.retryAfter = (500 : Int) - 200 ∧ 0 ≤ err.retryAfter) ∧
    checkAndConsume ⟨1000, 1⟩ 0 "g" emptyRL =
      .ok (isAllowed ⟨1000, 1⟩ 0 "g" emptyRL).2 := by
  constructor
  · exact (checkAndConsume_policy ⟨1000, 1⟩ "g").1 (rlSet emptyRL "g" ⟨1, 500⟩)
      200 ⟨1, 500⟩ (rlSet_same emptyRL "g" ⟨1, 500⟩) (by decide) (by decide)
  · exact (checkAndConsume_policy ⟨1000, 1⟩ "g").2 emptyRL 0 rfl

/-- C2 counterexample: the message "Object NOT FOUND" contains "not
found" after lower-casing, so the claim predicts a NotFound
classification; `createCosmicError` matches the message as written
(never lower-casing it) and returns the generic Cosmic error instead. -/
theorem createCosmicError_no_lowercasing :
    jsIncludes (String.mk ("Object NOT FOUND".data.map Char.toLower)) "not found" = true ∧
    createCosmicError ⟨"Object NOT FOUND"⟩ none =
      .cosmic "Object NOT FOUND" none (some ⟨"Object NOT FOUND"⟩) := by
  exact ⟨by decide, by decide⟩

/-- C2 (amended): `createCosmicError` pattern-matches the message as
written (case-sensitively) against substrings in priority order — "not
found"/"404" yields NotFound built from the context's identifier/type
(or "unknown"), then "unauthorized"/"401" yields Authentication, then
"quota"/"429" yields QuotaExceeded, then "validation"/"400" yields
Validation, then "network"/"connection" yields Connection — and when
none match it returns the generic Cosmic error preserving the original
message, the context, and the original error as cause. -/
theorem createCosmicError_priority (e : JsError) (ctx : Option ErrCtx) :
    ((jsIncludes e.message "not found" || jsIncludes e.message "404") = true →
      createCosmicError e ctx = .objectNotFound (ctxIdentifier ctx) (ctxType ctx)) ∧
    ((jsIncludes e.message "not found" || jsIncludes e.message "404") = false →
      (jsIncludes e.message "unauthorized" || jsIncludes e.message "401") = true →
      createCosmicError e ctx = .authentication e.message) ∧
    ((jsIncludes e.message "not found" || jsIncludes e.message "404") = false →
      (jsIncludes e.message "unauthorized" || jsIncludes e.message "401") = false →
      (jsIncludes e.message "quota" || jsIncludes e.message "429") = true →
      createCosmicError e ctx = .quotaExceeded e.message) ∧
    ((jsIncludes e.message "not found" || jsIncludes e.message "404") = false →
      (jsIncludes e.message "unauthorized" || jsIncludes e.message "401") = false →
      (jsIncludes e.message "quota" || jsIncludes e.message "429") = false →
      (jsIncludes e.message "validation" || jsIncludes e.message "400") = true →
      createCosmicError e ctx = .cosmicValidation e.message) ∧
    ((jsIncludes e.message "not found" || jsIncludes e.message "404") = false →
      (jsIncludes e.message "unauthorized" || jsIncludes e.message "401") = false →
      (jsIncludes e.message "quota" || jsIncludes e.message "429") = false →
      (jsIncludes e.message "validation" || jsIncludes e.message "400") = false →
      (jsIncludes e.message "network" || jsIncludes e.message "connection") = true →
      createCosmicError e ctx = .connection e.message) ∧
    ((jsIncludes e.message "not found" || jsIncludes e.message "404") = false →
      (jsIncludes e.message "unauthorized" || jsIncludes e.message "401") = false →
      (jsIncludes e.message "quota" || jsIncludes e.message "429") = false →
      (jsIncludes e.message "validation" || jsIncludes e.message "400") = false →
      (jsIncludes e.message "network" || jsIncludes e.message "connection") = false →
      createCosmicError e ctx = .cosmic e.message ctx (some e)) := by
  refine ⟨?_, ?_, ?_, ?_, ?_, ?_⟩
  · intro h1
    simp [createCosmicError, h1]
  · intro h1 h2
    simp [createCosmicError, h1, h2]
  · intro h1 h2 h3
    simp [createCosmicError, h1, h2, h3]
  · intro h1 h2 h3 h4
    simp [createCosmicError, h1, h2, h3, h4]
  · intro h1 h2 h3 h4 h5
    simp [createCosmicError, h1, h2, h3, h4, h5]
  · intro h1 h2 h3 h4 h5
    simp [createCosmicError, h1, h2, h3, h4, h5]

/-- C2 witness: concrete instances of the first and last priority
cases. -/
theorem createCosmicError_priority_witness :
    createCosmicError ⟨"item not found"⟩ (some ⟨some "post-1", some "posts"⟩) =
      .objectNotFound "post-1" (some "posts") ∧
    createCosmicError ⟨"boom"⟩ none = .cosmic "boom" none (some ⟨"boom"⟩) := by
  constructor
  · exact (createCosmicError_priority ⟨"item not found"⟩
      (some ⟨some "post-1", some "posts"⟩)).1 (by decide)
  · exact (createCosmicError_priority ⟨"boom"⟩ none).2.2.2.2.2
      (by decide) (by decide) (by decide) (by decide) (by decide)

lemma checkAndConsume_of_allowed (cfg : RateLimitConfig) (now : Nat)
    (identifier : String) (st : RLState)
    (h : (isAllowed cfg now identifier st).1 = true) :
    checkAndConsume cfg now identifier st =
      .ok (isAllowed cfg now identifier st).2 := by
  simp only [checkAndConsume]
  rw [if_pos h]

/-- C3: for an object type with at least one existing object (the
repository reports a nonempty `objects` array and a positive `total`),
`deleteObjectType` issues exactly one `findMany` query with `limit 1`
and `status "any"`, raises a ValidationError (statusCode 400) whose
message names the object count, and never invokes the type repository's
delete. -/
theorem deleteObjectType_blocked (cfg : RateLimitConfig) (st : RLState)
    (now : Nat) (slug : String) (findMany : FindManyQuery → CosmicListResponse)
    (objs : List String) (n : Nat)
    (hrate : (isAllowed cfg now "delete_object_type" st).1 = true)
    (hobjs : (findMany ⟨some slug, "any", 1, 0, "created_at"⟩).objects = some objs)
    (hne : 1 ≤ objs.length)
    (htotal : (findMany ⟨some slug, "any", 1, 0, "created_at"⟩).total = some n)
    (hn : 1 ≤ n) :
    deleteObjectType cfg st now slug (.ok ()) findMany =
      ⟨some ⟨some slug, "any", 1, 0, "created_at"⟩, false,
       .error (.validationError
         ("Cannot delete object type \x27" ++ slug ++ "\x27 because it has " ++
          toString n ++ " objects. Delete all objects of this type first."))⟩ ∧
    (∀ m : String, (ServiceError.validationError m).statusCode = 400) := by
  refine ⟨?_, fun m => rfl⟩
  have hcc := checkAndConsume_of_allowed cfg now "delete_object_type" st hrate
  simp only [deleteObjectType, hcc, hobjs]
  rw [if_pos (by omega)]
  have : jsCountOrExisting (findMany ⟨some slug, "any", 1, 0, "created_at"⟩).total =
      toString n := by
    rw [htotal]
    simp [jsCountOrExisting]
    omega
  rw [this]

/-- C3 witness: a type "posts" with one object and total 3 is blocked
with the message naming the count 3. -/
theorem deleteObjectType_blocked_witness :
    deleteObjectType ⟨1000, 5⟩ emptyRL 0 "posts" (.ok ())
        (fun _ => ⟨some ["o1"], some 3⟩) =
      ⟨some ⟨some "posts", "any", 1, 0, "created_at"⟩, false,
       .error (.validationError
         ("Cannot delete object type \x27posts\x27 because it has 3 objects. " ++
          "Delete all objects of this type first."))⟩ := by
  have H := deleteObjectType_blocked ⟨1000, 5⟩ emptyRL 0 "posts"
    (fun _ => ⟨some ["o1"], some 3⟩) ["o1"] 3 rfl rfl (by decide) rfl (by decide)
  rw [H.1]
  rfl

/-- C9: in `createObject`, every failure of the slug-uniqueness lookup —
whatever the error (connection, authentication, NotFound, ...) — is
caught by `checkObjectSlugExists` and treated as "slug available", so
the service proceeds to the repository's create call. -/
theorem createObject_lookup_errors_ignored (cfg : RateLimitConfig)
    (st : RLState) (now : Nat)
    (findOneBySlug : String → String → Except CosmicErr Unit)
    (data : CreateObjectData) (err : CosmicErr)
    (hrate : (isAllowed cfg now "create_object" st).1 = true)
    (_hslug : effectiveSlug data ≠ "")
    (hlookup : findOneBySlug (effectiveSlug data) data.typeSlug = .error err) :
    createObject cfg st now true findOneBySlug data =
      .ok { data with slug := some (effectiveSlug data) } := by
  have hcc := checkAndConsume_of_allowed cfg now "create_object" st hrate
  simp [createObject, hcc, hlookup, checkObjectSlugExists]

/-- C9 witness: a connection failure of the uniqueness lookup still
leads to the create call. -/
theorem createObject_lookup_errors_ignored_witness :
    createObject ⟨1000, 5⟩ emptyRL 0 true
        (fun _ _ => .error (.connection "ECONNREFUSED"))
        ⟨"My Post", "posts", some "my-post", "draft"⟩ =
      .ok ⟨"My Post", "posts", some "my-post", "draft"⟩ := by
  exact createObject_lookup_errors_ignored ⟨1000, 5⟩ emptyRL 0
    (fun _ _ => .error (.connection "ECONNREFUSED"))
    ⟨"My Post", "posts", some "my-post", "draft"⟩ (.connection "ECONNREFUSED")
    rfl (by decide) rfl

/-- C5 counterexample: "bogus_tool" is not a registered tool name, yet
with a saturated window for "tool_bogus_tool" the CallTool pipeline
throws the RateLimitError (statusCode 429) from the global rate check —
the rate check runs before the unknown-tool validation, so the claimed
"UnknownTool error ... before any rate check" is false. -/
theorem callToolPipeline_rate_check_first :
    registeredTools.contains "bogus_tool" = false ∧
    ∃ e : RateLimitErrorInfo,
      callToolPipeline ⟨60000, 5⟩ (rlSet emptyRL "tool_bogus_tool" ⟨5, 100⟩)
          50 "bogus_tool" = .rateLimited e ∧
      e.statusCode = 429 := by
  exact ⟨by decide, ⟨_, rfl, rfl⟩⟩

/-- C5 (amended): for every tool name outside the registered operation
names, `validateToolInput` throws a plain `Error` with message
`Unknown tool: <name>` — an error carrying no statusCode, not the
`UnknownToolError` class — before any schema parsing or service call;
in the server pipeline this happens only after the global rate check,
whose failure preempts the unknown-tool error entirely. -/
theorem validateToolInput_unknown (name : String)
    (h : registeredTools.contains name = false) :
    validateToolInput name = .error ⟨"Unknown tool: " ++ name⟩ ∧
    (∀ (cfg : RateLimitConfig) (st : RLState) (now : Nat),
      (isAllowed cfg now ("tool_" ++ name) st).1 = true →
      callToolPipeline cfg st now name =
        .plainException ⟨"Unknown tool: " ++ name⟩) ∧
    (∀ (cfg : RateLimitConfig) (st : RLState) (now : Nat)
        (e : RateLimitErrorInfo),
      checkAndConsume cfg now ("tool_" ++ name) st = .error e →
      callToolPipeline cfg st now name = .rateLimited e) := by
  have hv : validateToolInput name = .error ⟨"Unknown tool: " ++ name⟩ := by
    simp only [validateToolInput, h]
    simp
  refine ⟨hv, fun cfg st now hr => ?_, fun cfg st now e he => ?_⟩
  · have hcc := checkAndConsume_of_allowed cfg now ("tool_" ++ name) st hr
    simp [callToolPipeline, hcc, hv]
  · simp [callToolPipeline, he]

/-- C5 witness: the unknown name "bogus" yields the plain unknown-tool
error once the rate check passes. -/
theorem validateToolInput_unknown_witness :
    validateToolInput "bogus" = .error ⟨"Unknown tool: bogus"⟩ ∧
    callToolPipeline ⟨1000, 1⟩ emptyRL 0 "bogus" =
      .plainException ⟨"Unknown tool: bogus"⟩ := by
  have H := validateToolInput_unknown "bogus" (by decide)
  exact ⟨H.1, H.2.1 ⟨1000, 1⟩ emptyRL 0 rfl⟩

/-- C6: when the MIME type derived from the filename's extension is
outside the allow-list — in particular for an unknown extension such as
"virus.exe" — `uploadMedia` raises a ValidationError (statusCode 400)
and never reaches the media repository's create call. -/
theorem uploadMedia_rejects_disallowed_mime (cfg : RateLimitConfig)
    (st : RLState) (now : Nat) (data : CreateMediaData)
    (hrate : (isAllowed cfg now "upload_media" st).1 = true)
    (hmime : allowedMimeTypes.contains (getMimeTypeFromFilename data.filename) = false) :
    ∃ m : String,
      uploadMedia cfg st now data = .error (.validationError m) ∧
      (ServiceError.validationError m).statusCode = 400 := by
  have hcc := checkAndConsume_of_allowed cfg now "upload_media" st hrate
  simp only [uploadMedia, hcc]
  split_ifs with h1 h2 h3 h4 h5 h6
  · exact ⟨_, rfl, rfl⟩
  · exact ⟨_, rfl, rfl⟩
  · exact ⟨_, rfl, rfl⟩
  · exact ⟨_, rfl, rfl⟩
  · exact ⟨_, rfl, rfl⟩
  · exact ⟨_, rfl, rfl⟩
  · exact absurd h6 (by simpa using hmime)

/-- C6 witness: uploading "virus.exe" with a valid base64 payload is
rejected. -/
theorem uploadMedia_rejects_disallowed_mime_witness :
    ∃ m : String,
      uploadMedia ⟨1000, 5⟩ emptyRL 0 ⟨"dGVzdA==", "virus.exe", none, none⟩ =
        .error (.validationError m) ∧
      (ServiceError.validationError m).statusCode = 400 := by
  exact uploadMedia_rejects_disallowed_mime ⟨1000, 5⟩ emptyRL 0
    ⟨"dGVzdA==", "virus.exe", none, none⟩ rfl (by decide)

lemma jsEndsWith_last (v : List Char) (a b : Char) :
    jsEndsWith (v ++ [a]) [b] = (b == a) := by
  simp [jsEndsWith, List.isSuffixOf, List.reverse_append, List.isPrefixOf]

lemma jsEndsWith_last2 (v : List Char) (a b c : Char) :
    jsEndsWith (v ++ [a]) [b, c] = ((c == a) && [b].isPrefixOf v.reverse) := by
  simp [jsEndsWith, List.isSuffixOf, List.reverse_append, List.isPrefixOf]

lemma jsEndsWith_pair (v : List Char) (a b c d : Char) :
    jsEndsWith (v ++ [a, b]) [c, d] = ((d == b) && (c == a)) := by
  have h : v ++ [a, b] = (v ++ [a]) ++ [b] := by simp
  rw [h]
  simp [jsEndsWith, List.isSuffixOf, List.reverse_append, List.isPrefixOf]

lemma penultimate_append_pair (v : List Char) (a b : Char) :
    (v ++ [a, b])[(v ++ [a, b]).length - 2]? = some a := by
  have hl : (v ++ [a, b]).length = v.length + 2 := by simp
  rw [hl]
  have h2 : v.length + 2 - 2 = v.length := by omega
  rw [h2, List.getElem?_append_right (by omega)]
  simp

lemma pluralizeWord_consonant_y (v : List Char) (c : Char)
    (hc : (['a', 'e', 'i', 'o', 'u'].contains c) = false) :
    pluralizeWord (v ++ [c, 'y']) = v ++ [c] ++ ['i', 'e', 's'] := by
  have hassoc : v ++ [c, 'y'] = (v ++ [c]) ++ ['y'] := by simp
  have hcond : consonantYCond (v ++ [c, 'y']) = true := by
    simp only [consonantYCond, penultimateIsVowel, penultimate_append_pair]
    rw [hassoc, jsEndsWith_last]
    simp
    simpa using hc
  simp only [pluralizeWord, hcond, if_pos]
  rw [hassoc, List.dropLast_concat]

lemma pluralizeWord_s (v : List Char) :
    pluralizeWord (v ++ ['s']) = v ++ ['s'] ++ ['e', 's'] := by
  have hy : consonantYCond (v ++ ['s']) = false := by
    simp [consonantYCond, jsEndsWith_last]
  have hs : sibilantCond (v ++ ['s']) = true := by
    simp [sibilantCond, jsEndsWith_last]
  simp [pluralizeWord, hy, hs]

lemma pluralizeWord_sh (v : List Char) :
    pluralizeWord (v ++ ['s', 'h']) = v ++ ['s', 'h'] ++ ['e', 's'] := by
  have hassoc : v ++ ['s', 'h'] = (v ++ ['s']) ++ ['h'] := by simp
  have hy : consonantYCond (v ++ ['s', 'h']) = false := by
    rw [consonantYCond, hassoc, jsEndsWith_last]
    simp
  have hs : sibilantCond (v ++ ['s', 'h']) = true := by
    rw [sibilantCond, jsEndsWith_pair]
    simp
  simp [pluralizeWord, hy, hs]

lemma pluralizeWord_ch (v : List Char) :
    pluralizeWord (v ++ ['c', 'h']) = v ++ ['c', 'h'] ++ ['e', 's'] := by
  have hassoc : v ++ ['c', 'h'] = (v ++ ['c']) ++ ['h'] := by simp
  have hy : consonantYCond (v ++ ['c', 'h']) = false := by
    rw [consonantYCond, hassoc, jsEndsWith_last]
    simp
  have hs : sibilantCond (v ++ ['c', 'h']) = true := by
    simp only [sibilantCond, jsEndsWith_pair]
    rw [hassoc, jsEndsWith_last]
    simp
  simp [pluralizeWord, hy, hs]

lemma pluralizeWord_x (v : List Char) :
    pluralizeWord (v ++ ['x']) = v ++ ['x'] ++ ['e', 's'] := by
  have hy : consonantYCond (v ++ ['x']) = false := by
    simp [consonantYCond, jsEndsWith_last]
  have hs : sibilantCond (v ++ ['x']) = true := by
    simp [sibilantCond, jsEndsWith_last]
  simp [pluralizeWord, hy, hs]

lemma pluralizeWord_z (v : List Char) :
    pluralizeWord (v ++ ['z']) = v ++ ['z'] ++ ['e', 's'] := by
  have hy : consonantYCond (v ++ ['z']) = false := by
    simp [consonantYCond, jsEndsWith_last]
  have hs : sibilantCond (v ++ ['z']) = true := by
    simp [sibilantCond, jsEndsWith_last]
  simp [pluralizeWord, hy, hs]

lemma pluralizeWord_fe (v : List Char) :
    pluralizeWord (v ++ ['f', 'e']) = v ++ ['v', 'e', 's'] := by
  have hassoc : v ++ ['f', 'e'] = (v ++ ['f']) ++ ['e'] := by simp
  have hy : consonantYCond (v ++ ['f', 'e']) = false := by
    rw [consonantYCond, hassoc, jsEndsWith_last]
    simp
  have hs : sibilantCond (v ++ ['f', 'e']) = false := by
    simp only [sibilantCond, jsEndsWith_pair]
    rw [hassoc, jsEndsWith_last, jsEndsWith_last, jsEndsWith_last]
    simp
  have hf : jsEndsWith (v ++ ['f', 'e']) ['f'] = false := by
    rw [hassoc, jsEndsWith_last]
    simp
  have hfe : jsEndsWith (v ++ ['f', 'e']) ['f', 'e'] = true := by
    rw [jsEndsWith_pair]
    simp
  simp only [pluralizeWord, hy, hs, hf, hfe, Bool.false_eq_true, if_false, if_pos]
  rw [hassoc, List.dropLast_concat, List.dropLast_concat]

lemma pluralizeWord_f (v : List Char) :
    pluralizeWord (v ++ ['f']) = v ++ ['v', 'e', 's'] := by
  have hy : consonantYCond (v ++ ['f']) = false := by
    simp [consonantYCond, jsEndsWith_last]
  have hs : sibilantCond (v ++ ['f']) = false := by
    simp [sibilantCond, jsEndsWith_last, jsEndsWith_last2]
  have hf : jsEndsWith (v ++ ['f']) ['f'] = true := by
    rw [jsEndsWith_last]
    simp
  simp only [pluralizeWord, hy, hs, hf, Bool.false_eq_true, if_false, if_pos]
  rw [List.dropLast_concat]

lemma pluralizeWord_default (w : List Char)
    (hy : consonantYCond w = false) (hs : sibilantCond w = false)
    (hf : jsEndsWith w ['f'] = false) (hfe : jsEndsWith w ['f', 'e'] = false) :
    pluralizeWord w = w ++ ['s'] := by
  simp [pluralizeWord, hy, hs, hf, hfe]

/-- C8: a type created without singular/plural gets `singular = title`
and `plural = generatePluralForm title` (the heuristic pluralization of
the lower-cased, trimmed title); the pluralization maps a word ending in
non-vowel + "y" to "-ies", a word ending in s/sh/ch/x/z to "+es", a word
ending in "fe" to two characters dropped plus "ves", a word ending in
"f" to one character dropped plus "ves", and every other word to "+s";
in particular "Category" becomes "categories", "Box" becomes "boxes",
"Leaf" becomes "leaves", and "Post" becomes "posts". -/
theorem createObjectType_defaults_and_pluralization (cfg : RateLimitConfig)
    (st : RLState) (now : Nat) (data : CreateObjectTypeData)
    (hrate : (isAllowed cfg now "create_object_type" st).1 = true)
    (hslug : isValidSlugFormat data.slug = true)
    (hsing : data.singular = none) (hplur : data.plural = none) :
    createObjectType cfg st now false data =
      .ok { data with singular := some data.title,
                      plural := some (generatePluralForm data.title) } ∧
    generatePluralForm "Category" = "categories" ∧
    generatePluralForm "Box" = "boxes" ∧
    generatePluralForm "Leaf" = "leaves" ∧
    generatePluralForm "Post" = "posts" ∧
    (∀ (v : List Char) (c : Char), (['a', 'e', 'i', 'o', 'u'].contains c) = false →
      pluralizeWord (v ++ [c, 'y']) = v ++ [c] ++ ['i', 'e', 's']) ∧
    (∀ v : List Char, pluralizeWord (v ++ ['s']) = v ++ ['s'] ++ ['e', 's']) ∧
    (∀ v : List Char, pluralizeWord (v ++ ['s', 'h']) = v ++ ['s', 'h'] ++ ['e', 's']) ∧
    (∀ v : List Char, pluralizeWord (v ++ ['c', 'h']) = v ++ ['c', 'h'] ++ ['e', 's']) ∧
    (∀ v : List Char, pluralizeWord (v ++ ['x']) = v ++ ['x'] ++ ['e', 's']) ∧
    (∀ v : List Char, pluralizeWord (v ++ ['z']) = v ++ ['z'] ++ ['e', 's']) ∧
    (∀ v : List Char, pluralizeWord (v ++ ['f', 'e']) = v ++ ['v', 'e', 's']) ∧
    (∀ v : List Char, pluralizeWord (v ++ ['f']) = v ++ ['v', 'e', 's']) ∧
    (∀ w : List Char, consonantYCond w = false → sibilantCond w = false →
      jsEndsWith w ['f'] = false → jsEndsWith w ['f', 'e'] = false →
      pluralizeWord w = w ++ ['s']) := by
  have hcc := checkAndConsume_of_allowed cfg now "create_object_type" st hrate
  refine ⟨?_, by decide, by decide, by decide, by decide,
    pluralizeWord_consonant_y, pluralizeWord_s, pluralizeWord_sh,
    pluralizeWord_ch, pluralizeWord_x, pluralizeWord_z, pluralizeWord_fe,
    pluralizeWord_f, pluralizeWord_default⟩
  simp [createObjectType, hcc, hslug, hsing, hplur]

/-- C8 witness: creating the type "Category"/"category" without
singular/plural stores singular "Category" and plural "categories". -/
theorem createObjectType_defaults_witness :
    createObjectType ⟨1000, 5⟩ emptyRL 0 false
        ⟨"Category", "category", none, none⟩ =
      .ok ⟨"Category", "category", some "Category", some "categories"⟩ := by
  have H := createObjectType_defaults_and_pluralization ⟨1000, 5⟩ emptyRL 0
    ⟨"Category", "category", none, none⟩ rfl (by decide) rfl rfl
  rw [H.1]
  rw [H.2.1]

lemma slugChar_toLower (c : Char) (h : slugChar c = true) : c.toLower = c := by
  simp [slugChar, isLowerAlphaChar, isDigitChar] at h
  rcases h with (h | h) | rfl
  · simp [Char.toLower]
    omega
  · simp [Char.toLower]
    omega
  · decide

lemma slugChar_not_ws (c : Char) (h : slugChar c = true) : wsChar c = false := by
  simp [slugChar, isLowerAlphaChar, isDigitChar] at h
  rcases h with (h | h) | rfl
  · simp [wsChar]
    omega
  · simp [wsChar]
    omega
  · decide

lemma slugSource_not_ws_slugChar (c : Char) (hs : slugSourceChar c = true)
    (hw : wsChar c = false) : slugChar c = true := by
  simp [slugSourceChar, hw] at hs
  simp [slugChar]
  tauto

lemma slugChar_source (c : Char) (h : slugChar c = true) :
    slugSourceChar c = true := by
  simp [slugChar] at h
  simp [slugSourceChar]
  tauto

lemma mem_dropLeadChar {c : Char} (ch : Char) (l : List Char)
    (h : c ∈ dropLeadChar ch l) : c ∈ l := by
  cases l with
  | nil => simpa [dropLeadChar] using h
  | cons a t =>
    by_cases ha : a = ch
    · simp only [dropLeadChar, if_pos ha] at h
      exact List.mem_cons_of_mem a h
    · simpa [dropLeadChar, ha] using h

lemma mem_dropWhile {c : Char} (p : Char → Bool) (l : List Char)
    (h : c ∈ l.dropWhile p) : c ∈ l := by
  induction l with
  | nil => simpa using h
  | cons a t ih =>
    by_cases hp : p a = true
    · rw [List.dropWhile_cons_of_pos hp] at h
      exact List.mem_cons_of_mem a (ih h)
    · rwa [List.dropWhile_cons_of_neg (by simp [hp])] at h

lemma mem_trimWsL {c : Char} (l : List Char) (h : c ∈ trimWsL l) : c ∈ l := by
  unfold trimWsL at h
  rw [List.mem_reverse] at h
  have h2 := mem_dropWhile wsChar _ h
  rw [List.mem_reverse] at h2
  exact mem_dropWhile wsChar l h2

lemma mem_replaceRunsAux {c : Char} (p : Char → Bool) (r : Char) :
    ∀ (l : List Char) (b : Bool), c ∈ replaceRunsAux p r b l →
      c = r ∨ (c ∈ l ∧ p c = false) := by
  intro l
  induction l with
  | nil =>
    intro b h
    simp [replaceRunsAux] at h
  | cons a t ih =>
    intro b h
    simp only [replaceRunsAux] at h
    by_cases hpa : p a = true
    · rw [if_pos hpa] at h
      cases b with
      | true =>
        rcases ih true h with h1 | h1
        · exact Or.inl h1
        · exact Or.inr ⟨List.mem_cons_of_mem a h1.1, h1.2⟩
      | false =>
        rcases List.mem_cons.mp h with h1 | h1
        · exact Or.inl h1
        · rcases ih true h1 with h2 | h2
          · exact Or.inl h2
          · exact Or.inr ⟨List.mem_cons_of_mem a h2.1, h2.2⟩
    · rw [if_neg hpa] at h
      rcases List.mem_cons.mp h with h1 | h1
      · subst h1
        exact Or.inr ⟨List.mem_cons_self c t, by simpa using hpa⟩
      · rcases ih false h1 with h2 | h2
        · exact Or.inl h2
        · exact Or.inr ⟨List.mem_cons_of_mem a h2.1, h2.2⟩

lemma dropWhile_eq_self (p : Char → Bool) (l : List Char)
    (h : ∀ c ∈ l, p c = false) : l.dropWhile p = l := by
  cases l with
  | nil => rfl
  | cons a t =>
    exact List.dropWhile_cons_of_neg (by simp [h a (List.mem_cons_self a t)])

lemma trimWsL_eq_self (l : List Char) (h : ∀ c ∈ l, wsChar c = false) :
    trimWsL l = l := by
  unfold trimWsL
  rw [dropWhile_eq_self wsChar l h]
  rw [dropWhile_eq_self wsChar l.reverse (fun c hc => h c (List.mem_reverse.mp hc))]
  exact List.reverse_reverse l

lemma map_toLower_eq_self (l : List Char) (h : ∀ c ∈ l, slugChar c = true) :
    l.map Char.toLower = l := by
  induction l with
  | nil => rfl
  | cons a t ih =>
    rw [List.map_cons, slugChar_toLower a (h a (List.mem_cons_self a t)),
      ih (fun c hc => h c (List.mem_cons_of_mem a hc))]

lemma replaceRuns_no_p (p : Char → Bool) (r : Char) (l : List Char)
    (h : ∀ c ∈ l, p c = false) : replaceRuns p r l = l := by
  unfold replaceRuns
  induction l with
  | nil => rfl
  | cons a t ih =>
    simp only [replaceRunsAux, h a (List.mem_cons_self a t)]
    rw [if_neg (by simp)]
    rw [ih (fun c hc => h c (List.mem_cons_of_mem a hc))]

lemma dropLeadChar_eq_self (ch : Char) (l : List Char)
    (h : l.head? ≠ some ch) : dropLeadChar ch l = l := by
  cases l with
  | nil => rfl
  | cons a t =>
    simp only [List.head?_cons, ne_eq, Option.some.injEq] at h
    simp [dropLeadChar, h]

lemma trimEdgeChar_eq_self (ch : Char) (l : List Char)
    (hhead : l.head? ≠ some ch) (hlast : l.getLast? ≠ some ch) :
    trimEdgeChar ch l = l := by
  unfold trimEdgeChar
  rw [dropLeadChar_eq_self ch l hhead]
  rw [dropLeadChar_eq_self ch l.reverse (by rwa [List.head?_reverse l])]
  exact List.reverse_reverse l

lemma head_replaceRunsAux_hy :
    ∀ (l : List Char) (x : Char),
      (replaceRunsAux (fun c => c = '-') '-' true l).head? = some x → x ≠ '-' := by
  intro l
  induction l with
  | nil =>
    intro x h
    simp [replaceRunsAux] at h
  | cons a t ih =>
    intro x h
    simp only [replaceRunsAux] at h
    by_cases ha : a = '-'
    · rw [if_pos (by simp [ha])] at h
      exact ih x h
    · rw [if_neg (by simp [ha])] at h
      simp only [List.head?_cons, Option.some.injEq] at h
      subst h
      exact ha

lemma noTwoHyphens_replaceRunsAux :
    ∀ (l : List Char) (b : Bool),
      NoTwoHyphens (replaceRunsAux (fun c => c = '-') '-' b l) := by
  intro l
  induction l with
  | nil =>
    intro b
    simp [replaceRunsAux, NoTwoHyphens]
  | cons a t ih =>
    intro b
    simp only [replaceRunsAux]
    by_cases ha : a = '-'
    · rw [if_pos (by simp [ha])]
      cases b with
      | true => exact ih true
      | false =>
        refine List.chain'_cons'.mpr ⟨?_, ih true⟩
        intro x hx
        have := head_replaceRunsAux_hy t x hx
        tauto
    · rw [if_neg (by simp [ha])]
      refine List.chain'_cons'.mpr ⟨?_, ih false⟩
      intro x _
      tauto

lemma replaceRunsAux_hy_id :
    ∀ (l : List Char), NoTwoHyphens l →
      replaceRunsAux (fun c => c = '-') '-' false l = l ∧
      (l.head? ≠ some '-' → replaceRunsAux (fun c => c = '-') '-' true l = l) := by
  intro l
  induction l with
  | nil => exact fun _ => ⟨rfl, fun _ => rfl⟩
  | cons a t ih =>
    intro h
    have ht : NoTwoHyphens t := h.tail
    have hhd := (List.chain'_cons'.mp h).1
    constructor
    · by_cases ha : a = '-'
      · subst ha
        have htid : replaceRunsAux (fun c => c = '-') '-' true t = t := by
          refine (ih ht).2 ?_
          cases t with
          | nil => simp
          | cons x s =>
            have := hhd x (by simp)
            simp only [List.head?_cons, ne_eq, Option.some.injEq]
            tauto
        simp only [replaceRunsAux]
        rw [if_pos (by decide), if_neg (by decide), htid]
      · simp only [replaceRunsAux]
        rw [if_neg (by simp [ha])]
        rw [(ih ht).1]
    · intro hhead
      have ha : a ≠ '-' := by
        simp only [List.head?_cons, ne_eq, Option.some.injEq] at hhead
        exact hhead
      simp only [replaceRunsAux]
      rw [if_neg (by simp [ha])]
      rw [(ih ht).1]

lemma replaceRuns_hy_id (l : List Char) (h : NoTwoHyphens l) :
    replaceRuns (fun c => c = '-') '-' l = l :=
  (replaceRunsAux_hy_id l h).1

lemma noTwoHyphens_tail_dropLead (l : List Char) (h : NoTwoHyphens l) :
    NoTwoHyphens (dropLeadChar '-' l) := by
  cases l with
  | nil => exact h
  | cons a t =>
    by_cases ha : a = '-'
    · rw [show dropLeadChar '-' (a :: t) = t by simp [dropLeadChar, ha]]
      exact h.tail
    · rw [show dropLeadChar '-' (a :: t) = a :: t by simp [dropLeadChar, ha]]
      exact h

lemma noTwoHyphens_reverse (l : List Char) (h : NoTwoHyphens l) :
    NoTwoHyphens l.reverse := by
  refine List.chain'_reverse.mpr (List.Chain'.imp ?_ h)
  intro a b hab
  tauto

lemma head_dropLead_hy (l : List Char) (h : NoTwoHyphens l) :
    (dropLeadChar '-' l).head? ≠ some '-' := by
  cases l with
  | nil => simp [dropLeadChar]
  | cons a t =>
    by_cases ha : a = '-'
    · simp only [dropLeadChar, if_pos ha]
      cases t with
      | nil => simp
      | cons x s =>
        have := (List.chain'_cons'.mp h).1 x (by simp)
        subst ha
        simp only [List.head?_cons, ne_eq, Option.some.injEq]
        tauto
    · simp [dropLeadChar, ha]

lemma getLast_dropLead_hy (l : List Char) (h : l.getLast? ≠ some '-') :
    (dropLeadChar '-' l).getLast? ≠ some '-' := by
  cases l with
  | nil => simpa [dropLeadChar] using h
  | cons a t =>
    by_cases ha : a = '-'
    · simp only [dropLeadChar, if_pos ha]
      cases t with
      | nil => simp
      | cons x s =>
        rwa [List.getLast?_cons_cons] at h
    · simpa [dropLeadChar, ha] using h

lemma generateSlugL_chars (l : List Char) :
    ∀ c ∈ generateSlugL l, slugChar c = true := by
  intro c hc
  unfold generateSlugL trimEdgeChar at hc
  rw [List.mem_reverse] at hc
  have hc2 := mem_dropLeadChar '-' _ hc
  rw [List.mem_reverse] at hc2
  have hc3 := mem_dropLeadChar '-' _ hc2
  rcases mem_replaceRunsAux (fun c => c = '-') '-' _ false hc3 with h | h
  · simp [h, slugChar]
  · rcases mem_replaceRunsAux wsChar '-' _ false h.1 with h2 | h2
    · simp [h2, slugChar]
    · have h3 := List.mem_filter.mp h2.1
      exact slugSource_not_ws_slugChar c h3.2 h2.2

lemma generateSlugL_noTwo (l : List Char) : NoTwoHyphens (generateSlugL l) := by
  unfold generateSlugL trimEdgeChar
  apply noTwoHyphens_reverse
  apply noTwoHyphens_tail_dropLead
  apply noTwoHyphens_reverse
  apply noTwoHyphens_tail_dropLead
  exact noTwoHyphens_replaceRunsAux _ false

lemma generateSlugL_edges (l : List Char) :
    (generateSlugL l).head? ≠ some '-' ∧ (generateSlugL l).getLast? ≠ some '-' := by
  unfold generateSlugL trimEdgeChar
  set m := replaceRuns (fun c => c = '-') '-'
    (replaceRuns wsChar '-'
      ((trimWsL (l.map Char.toLower)).filter slugSourceChar)) with hm
  have hchain : NoTwoHyphens m := noTwoHyphens_replaceRunsAux _ false
  have hm3head : (dropLeadChar '-' m).head? ≠ some '-' := head_dropLead_hy m hchain
  have hm3chain : NoTwoHyphens (dropLeadChar '-' m) := noTwoHyphens_tail_dropLead m hchain
  have hr3chain : NoTwoHyphens (dropLeadChar '-' m).reverse :=
    noTwoHyphens_reverse _ hm3chain
  have hr3last : (dropLeadChar '-' m).reverse.getLast? ≠ some '-' := by
    rw [List.getLast?_reverse]
    exact hm3head
  have hm4head : (dropLeadChar '-' ((dropLeadChar '-' m).reverse)).head? ≠ some '-' :=
    head_dropLead_hy _ hr3chain
  have hm4last : (dropLeadChar '-' ((dropLeadChar '-' m).reverse)).getLast? ≠ some '-' :=
    getLast_dropLead_hy _ hr3last
  constructor
  · rw [List.head?_reverse]
    exact hm4last
  · rw [List.getLast?_reverse]
    exact hm4head

lemma generateSlugL_fixed (l : List Char)
    (hchars : ∀ c ∈ l, slugChar c = true) (hchain : NoTwoHyphens l)
    (hhead : l.head? ≠ some '-') (hlast : l.getLast? ≠ some '-') :
    generateSlugL l = l := by
  unfold generateSlugL
  rw [map_toLower_eq_self l hchars]
  rw [trimWsL_eq_self l (fun c hc => slugChar_not_ws c (hchars c hc))]
  rw [List.filter_eq_self.mpr (fun c hc => slugChar_source c (hchars c hc))]
  rw [replaceRuns_no_p wsChar '-' l (fun c hc => slugChar_not_ws c (hchars c hc))]
  rw [replaceRuns_hy_id l hchain]
  exact trimEdgeChar_eq_self '-' l hhead hlast

/-- C7: slug generation is idempotent — applying
`generateSlugFromTitle` to its own output returns the output unchanged,
for every input string — and maps "Hello, World!!" to "hello-world" and
"  multiple   spaces " to "multiple-spaces". -/
theorem generateSlugFromTitle_idempotent :
    (∀ s : String,
      generateSlugFromTitle (generateSlugFromTitle s) = generateSlugFromTitle s) ∧
    generateSlugFromTitle "Hello, World!!" = "hello-world" ∧
    generateSlugFromTitle "  multiple   spaces " = "multiple-spaces" := by
  refine ⟨?_, by decide, by decide⟩
  intro s
  have hedges := generateSlugL_edges s.data
  have h := generateSlugL_fixed (generateSlugL s.data) (generateSlugL_chars s.data)
    (generateSlugL_noTwo s.data) hedges.1 hedges.2
  exact congrArg String.mk h
